import Mathlib

/-!
# OGF::ApplicationBase and OGF::MeshGrobPaintTool

A shallow embedding of `src/lib/OGF/skin/types/application_base.cpp` and of the
inline members of `src/lib/OGF/mesh/tools/mesh_grob_paint_tools.h`.

`ApplicationBase` is glue code: every member function is a short sequence of
calls into singleton services (Logger, Progress, Environment, CmdLine,
Preferences, FileManager), into the owned interpreter and into virtual hooks
(`started`, `notify_progress`, `draw`, ...).  The embedding is explicit state
passing over a `World`:

* every call that leaves the two source files, and the assignment to the
  process-wide static `stopping_`, is appended to `World.trace` in program order;
* the effect of the callee is modelled for the Logger client registry, the
  Progress client slot and the Environment variable store, which the properties
  below talk about; the other callees are recorded only;
* a null pointer is `none`; dereferencing it makes the operation return `none`.
-/

namespace OGF

/-- Address of a heap object.  A C++ pointer is an `Option Ptr`, `none` being `nullptr`. -/
abbrev Ptr := Nat

/-- Calls leaving `application_base.cpp` (and the write to the static `stopping_`),
in the order in which the code performs them. -/
inductive Event where
  /-- The assignment `stopping_ = value;` -/
  | stopping_assigned (value : Bool)
  /-- The call `Logger::instance()->register_client(client)` -/
  | Logger_register_client (client : Option Ptr)
  /-- The call `Logger::instance()->unregister_client(client)` -/
  | Logger_unregister_client (client : Option Ptr)
  /-- The call `Progress::set_client(client)` -/
  | Progress_set_client (client : Option Ptr)
  /-- The call `Progress::cancel()` -/
  | Progress_cancel
  /-- The call `Logger::out(feature) << message << std::endl` -/
  | Logger_out (feature message : String)
  /-- The call `Environment::instance()->set_value(name, value)` -/
  | Environment_set_value (name value : String)
  /-- The call `interpreter()->execute_file(file_name)` on the interpreter at `interpreter` -/
  | execute_file (interpreter : Ptr) (file_name : String)
  /-- The call `started()` -/
  | started
  /-- The call `Preferences::declare_preference_variable(name)` -/
  | Preferences_declare_preference_variable (name : String)
  /-- The call `Preferences::declare_preference_variable(name, value, help)`, `value` a C string -/
  | Preferences_declare_preference_variable_default (name value help : String)
  /-- The call `Preferences::save_preferences()` -/
  | Preferences_save_preferences
  /-- The call `CmdLine::load_config(file_name, program_name)` -/
  | CmdLine_load_config (file_name program_name : String)
  /-- The call `notify_progress(percent)` -/
  | notify_progress (percent : Nat)
  /-- The call `notify_progress_begin(task_name)` -/
  | notify_progress_begin (task_name : String)
  /-- The call `notify_progress_end()` -/
  | notify_progress_end
  /-- The call `draw()` -/
  | draw
  /-- The call `update()` -/
  | update
  /-- The call `application_base_->div(value)` -/
  | div (value : String)
  /-- The call `application_base_->out(value)` -/
  | out (value : String)
  /-- The call `application_base_->warn(value)` -/
  | warn (value : String)
  /-- The call `application_base_->err(value)` -/
  | err (value : String)
  /-- The call `application_base_->status(value)` -/
  | status (value : String)
  deriving DecidableEq, Repr

/-- Everything outside the `ApplicationBase` object that its member functions read or write. -/
structure World where
  /-- The static `bool ApplicationBase::stopping_`. -/
  stopping_ : Bool
  /-- Variables of `Environment::instance()`, most recent binding first. -/
  environment : List (String × String)
  /-- Clients registered with `Logger::instance()`. -/
  logger_clients : List Ptr
  /-- The client installed by `Progress::set_client`. -/
  progress_client : Option Ptr
  /-- Name of the task `Progress::current_progress_task()` points to, `none` when it is null. -/
  current_progress_task : Option String
  /-- Names of the arguments declared on the command line (`CmdLine::arg_is_declared`). -/
  cmdline_declared : List String
  /-- The vector returned by `CmdLine::argv()`. -/
  cmdline_argv : List String
  /-- The value of `CmdLine::config_file_loaded()`. -/
  cmdline_config_file_loaded : Bool
  /-- Files known to `FileManager::instance()`: name and resolved path. -/
  file_manager : List (String × String)
  /-- Next address handed out by `new`. -/
  next_ptr : Ptr
  /-- Calls performed so far, oldest first. -/
  trace : List Event
  deriving DecidableEq, Repr

/-- State of the process before `main` runs: `bool ApplicationBase::stopping_ = true;`. -/
def World.initial : World :=
  { stopping_ := true, environment := [], logger_clients := [], progress_client := none,
    current_progress_task := none, cmdline_declared := [], cmdline_argv := [],
    cmdline_config_file_loaded := false, file_manager := [], next_ptr := 1, trace := [] }

/-- Record a call in the trace. -/
def emit (e : Event) (w : World) : World :=
  { w with trace := w.trace ++ [e] }

/-- The expression `new T(...)`: a fresh address. -/
def allocate (w : World) : Ptr × World :=
  (w.next_ptr, { w with next_ptr := w.next_ptr + 1 })

/-! ## Services used by `ApplicationBase` (their code is not in the two source files) -/

/-- Modelled from the spec: `Logger::register_client`, absent from the sources.  The spec
describes the logger client as "registered with global singleton services on construction";
the registry is a set of client addresses and registering adds the client to it. -/
def Logger.register_client (client : Option Ptr) (w : World) : World :=
  let w := emit (.Logger_register_client client) w
  match client with
  | none => w
  | some c =>
    if c ∈ w.logger_clients then w else { w with logger_clients := w.logger_clients ++ [c] }

/-- Modelled from the spec: `Logger::unregister_client`, absent from the sources.  The spec
describes the logger client as "unregistered on destruction/stop"; unregistering removes the
client from the registry, and a request for a client that is not in it (the null pointer
included) leaves the registry as it is. -/
def Logger.unregister_client (client : Option Ptr) (w : World) : World :=
  let w := emit (.Logger_unregister_client client) w
  match client with
  | none => w
  | some c => { w with logger_clients := w.logger_clients.filter (fun x => x ≠ c) }

/-- Modelled from the spec: `Progress::set_client`, absent from the sources.  Progress has one
client slot ("clears the progress sink"); the call overwrites it. -/
def Progress.set_client (client : Option Ptr) (w : World) : World :=
  { emit (.Progress_set_client client) w with progress_client := client }

/-- The call `Progress::cancel()`. -/
def Progress.cancel (w : World) : World :=
  emit .Progress_cancel w

/-- The statement `Logger::out(feature) << message << std::endl;`. -/
def Logger.out (feature message : String) (w : World) : World :=
  emit (.Logger_out feature message) w

/-- Modelled from the spec: `Environment::has_value`, absent from the sources: whether the
environment has a value for `name`. -/
def Environment.has_value (w : World) (name : String) : Bool :=
  (w.environment.lookup name).isSome

/-- Modelled from the spec: `Environment::get_value`, absent from the sources: the value of
`name` (the code only asks for it after `has_value` answered true). -/
def Environment.get_value (w : World) (name : String) : String :=
  (w.environment.lookup name).getD ""

/-- Modelled from the spec: `Environment::set_value`, absent from the sources: the style and
font size are "forwarded to a global environment store". -/
def Environment.set_value (name value : String) (w : World) : World :=
  { emit (.Environment_set_value name value) w with
    environment := (name, value) :: w.environment }

/-- The query `CmdLine::arg_is_declared(name)`. -/
def CmdLine.arg_is_declared (w : World) (name : String) : Bool :=
  decide (name ∈ w.cmdline_declared)

/-- What a callee taking `const char*` sees of `s.c_str()`: the characters before the first
NUL of the `std::string`. -/
def c_str (s : String) : String :=
  String.mk (s.data.takeWhile (fun c => c ≠ Char.ofNat 0))

/-- Functions of other libraries whose result the code uses but whose body is not in the
sources. -/
structure Externals where
  /-- The call `String::split_string(in, separator, out)`: the fields appended to the empty `out`. -/
  split_string : String → Char → List String
  /-- The call `ogf_convert_to_string(value, out)` for an `index_t`. -/
  ogf_convert_to_string : Nat → String

/-! ## ApplicationBase -/

/-- Data members of `ApplicationBase` set by its constructor. -/
structure ApplicationBase where
  interpreter_ : Option Ptr
  logger_client_ : Option Ptr
  progress_client_ : Option Ptr
  deriving DecidableEq, Repr

namespace ApplicationBase

/-- The constructor `ApplicationBase::ApplicationBase(Interpreter* interpreter)`. -/
def constructor (interpreter : Option Ptr) (w : World) :
    OGF.ApplicationBase × World :=
  let (logger_client, w) := allocate w
  let (progress_client, w) := allocate w
  let w := Logger.register_client (some logger_client) w
  let w := Progress.set_client (some progress_client) w
  ({ interpreter_ := interpreter, logger_client_ := some logger_client,
     progress_client_ := some progress_client }, w)

/-- The destructor `ApplicationBase::~ApplicationBase()`. -/
def destructor (app : OGF.ApplicationBase) (w : World) : World :=
  let w := if app.logger_client_ ≠ none then Logger.unregister_client app.logger_client_ w else w
  Progress.set_client none w

/-- The loop of `start()` over `gel_files`: for each file a log line, then
`interpreter()->execute_file(gel_files[i])`, which dereferences `interpreter_`.  The index
`i` is an `unsigned int` compared with `gel_files.size()`; for a vector of fewer than 2^32
elements the loop visits each element once, in order, which the recursion on the list
follows. -/
def execute_startup_files (app : OGF.ApplicationBase) : List String → World → Option World
  | [], w => some w
  | file :: files, w =>
    let w := Logger.out "GEL" ("Loading file: " ++ file) w
    match app.interpreter_ with
    | none => none
    | some interpreter => execute_startup_files app files (emit (.execute_file interpreter file) w)

/-- The member function `ApplicationBase::start()`. -/
def start (ext : Externals) (app : OGF.ApplicationBase) (w : World) : Option World :=
  let w := { emit (.stopping_assigned false) w with stopping_ := false }
  let loaded :=
    if Environment.has_value w "gel:startup_files" then
      let gel_str := Environment.get_value w "gel:startup_files"
      let gel_files := ext.split_string gel_str ';'
      execute_startup_files app gel_files w
    else some w
  loaded.map (emit .started)

/-- The member function `ApplicationBase::stop()`. -/
def stop (app : OGF.ApplicationBase) (w : World) : OGF.ApplicationBase × World :=
  let w := Logger.unregister_client app.logger_client_ w
  let app := { app with logger_client_ := none }
  (app, Progress.set_client none w)

/-- The member function `ApplicationBase::set_style(value)`. -/
def set_style (_app : OGF.ApplicationBase) (value : String) (w : World) : World :=
  Environment.set_value "gfx:style" value w

/-- The member function `ApplicationBase::set_font_size(value)`. -/
def set_font_size (ext : Externals) (_app : OGF.ApplicationBase) (value : Nat) (w : World) :
    World :=
  let value_string := ext.ogf_convert_to_string value
  Environment.set_value "gui:font_size" value_string w

/-- The member function `ApplicationBase::declare_preference_variable(name, value, help)`. -/
def declare_preference_variable (_app : OGF.ApplicationBase) (name value help : String)
    (w : World) : World :=
  if CmdLine.arg_is_declared w name then
    emit (.Preferences_declare_preference_variable name) w
  else
    emit (.Preferences_declare_preference_variable_default name (c_str value) help) w

/-- The member function `ApplicationBase::save_preferences()`. -/
def save_preferences (_app : OGF.ApplicationBase) (w : World) : World :=
  emit .Preferences_save_preferences w

/-- The member function `ApplicationBase::load_preferences(filename)`; `CmdLine::argv()[0]`
does not exist when the vector is empty. -/
def load_preferences (_app : OGF.ApplicationBase) (filename : String) (w : World) :
    Option World :=
  match w.cmdline_argv with
  | [] => none
  | program_name :: _ => some (emit (.CmdLine_load_config filename program_name) w)

/-- The member function `ApplicationBase::preferences_loaded()`. -/
def preferences_loaded (_app : OGF.ApplicationBase) (w : World) : Bool :=
  w.cmdline_config_file_loaded

/-- The member function `ApplicationBase::draw()`: virtual, with an empty body here; the
call is recorded. -/
def draw (_app : OGF.ApplicationBase) (w : World) : World :=
  emit .draw w

/-- The member function `ApplicationBase::update()`: virtual, with an empty body here; the
call is recorded. -/
def update (_app : OGF.ApplicationBase) (w : World) : World :=
  emit .update w

/-- The member function `ApplicationBase::progress(step, percent)`. -/
def progress (app : OGF.ApplicationBase) (step percent : Nat) (w : World) : World :=
  let _unused := step
  let w := emit (.notify_progress percent) w
  draw app w

/-- The member function `ApplicationBase::cancel_current_job()`. -/
def cancel_current_job (_app : OGF.ApplicationBase) (w : World) : World :=
  let w := Logger.out "Task" "Canceled current job" w
  Progress.cancel w

/-- The member function `ApplicationBase::begin()`. -/
def begin (_app : OGF.ApplicationBase) (w : World) : Option World :=
  match w.current_progress_task with
  | none => none
  | some task_name =>
    let w := Logger.out task_name "Running..." w
    some (emit (.notify_progress_begin task_name) w)

/-- The member function `ApplicationBase::end(canceled)`. -/
def «end» (_app : OGF.ApplicationBase) (canceled : Bool) (w : World) : Option World :=
  match w.current_progress_task with
  | none => none
  | some task_name =>
    let w :=
      if canceled then
        let w := Logger.out task_name "interrupted." w
        emit (.notify_progress 0) w
      else w
    some (emit .notify_progress_end w)

/-- The member function `ApplicationBase::find_file(filename)`: `FileManager::find_file`
replaces `result` by the resolved path and answers whether it found the file. -/
def find_file (_app : OGF.ApplicationBase) (filename : String) (w : World) : String :=
  let result := filename
  match w.file_manager.lookup result with
  | none => ""
  | some resolved => resolved

end ApplicationBase

/-! ## The two forwarding clients -/

/-- The class `ApplicationBase::ApplicationBaseProgressClient`: it keeps the application it
was built for in `application_base_`. -/
structure ApplicationBaseProgressClient where
  application_base_ : ApplicationBase
  deriving DecidableEq, Repr

namespace ApplicationBaseProgressClient

/-- The member function `ApplicationBaseProgressClient::begin()`. -/
def begin (client : ApplicationBaseProgressClient) (w : World) : Option World :=
  ApplicationBase.begin client.application_base_ w

/-- The member function `ApplicationBaseProgressClient::progress(step, percent)`. -/
def progress (client : ApplicationBaseProgressClient) (step percent : Nat) (w : World) :
    World :=
  ApplicationBase.progress client.application_base_ step percent w

/-- The member function `ApplicationBaseProgressClient::end(canceled)`. -/
def «end» (client : ApplicationBaseProgressClient) (canceled : Bool) (w : World) :
    Option World :=
  ApplicationBase.end client.application_base_ canceled w

end ApplicationBaseProgressClient

/-- The class `ApplicationBase::ApplicationBaseLoggerClient`: it keeps the application it was
built for in `application_base_` and hands every message to it. -/
structure ApplicationBaseLoggerClient where
  application_base_ : ApplicationBase
  deriving DecidableEq, Repr

namespace ApplicationBaseLoggerClient

/-- The member function `ApplicationBaseLoggerClient::div(value)`. -/
def div (_client : ApplicationBaseLoggerClient) (value : String) (w : World) : World :=
  emit (.div value) w

/-- The member function `ApplicationBaseLoggerClient::out(value)`. -/
def out (_client : ApplicationBaseLoggerClient) (value : String) (w : World) : World :=
  emit (.out value) w

/-- The member function `ApplicationBaseLoggerClient::warn(value)`. -/
def warn (_client : ApplicationBaseLoggerClient) (value : String) (w : World) : World :=
  emit (.warn value) w

/-- The member function `ApplicationBaseLoggerClient::err(value)`. -/
def err (_client : ApplicationBaseLoggerClient) (value : String) (w : World) : World :=
  emit (.err value) w

/-- The member function `ApplicationBaseLoggerClient::status(value)`. -/
def status (_client : ApplicationBaseLoggerClient) (value : String) (w : World) : World :=
  emit (.status value) w

end ApplicationBaseLoggerClient

/-! ## Sequences of operations -/

/-- The operations defined in `application_base.cpp` that can be applied to a constructed
`ApplicationBase`: its member functions and those of its two clients. -/
inductive Operation where
  | start
  | stop
  | set_style (value : String)
  | set_font_size (value : Nat)
  | declare_preference_variable (name value help : String)
  | save_preferences
  | load_preferences (filename : String)
  | preferences_loaded
  | progress (step percent : Nat)
  | cancel_current_job
  | begin
  | «end» (canceled : Bool)
  | find_file (filename : String)
  | draw
  | update
  | progress_client_begin
  | progress_client_progress (step percent : Nat)
  | progress_client_end (canceled : Bool)
  | logger_client_div (value : String)
  | logger_client_out (value : String)
  | logger_client_warn (value : String)
  | logger_client_err (value : String)
  | logger_client_status (value : String)
  deriving DecidableEq, Repr

/-- One operation applied to the application and the world; `none` when the operation
dereferences a null pointer or reads `argv()[0]` of an empty vector.  Results of the two
queries are dropped. -/
def Operation.run (ext : Externals) :
    Operation → ApplicationBase × World → Option (ApplicationBase × World)
  | .start, (app, w) => (ApplicationBase.start ext app w).map (fun w1 => (app, w1))
  | .stop, (app, w) => some (ApplicationBase.stop app w)
  | .set_style value, (app, w) => some (app, ApplicationBase.set_style app value w)
  | .set_font_size value, (app, w) => some (app, ApplicationBase.set_font_size ext app value w)
  | .declare_preference_variable name value help, (app, w) =>
    some (app, ApplicationBase.declare_preference_variable app name value help w)
  | .save_preferences, (app, w) => some (app, ApplicationBase.save_preferences app w)
  | .load_preferences filename, (app, w) =>
    (ApplicationBase.load_preferences app filename w).map (fun w1 => (app, w1))
  | .preferences_loaded, (app, w) =>
    let _loaded := ApplicationBase.preferences_loaded app w
    some (app, w)
  | .progress step percent, (app, w) => some (app, ApplicationBase.progress app step percent w)
  | .cancel_current_job, (app, w) => some (app, ApplicationBase.cancel_current_job app w)
  | .begin, (app, w) => (ApplicationBase.begin app w).map (fun w1 => (app, w1))
  | .end canceled, (app, w) => (ApplicationBase.end app canceled w).map (fun w1 => (app, w1))
  | .find_file filename, (app, w) =>
    let _found := ApplicationBase.find_file app filename w
    some (app, w)
  | .draw, (app, w) => some (app, ApplicationBase.draw app w)
  | .update, (app, w) => some (app, ApplicationBase.update app w)
  | .progress_client_begin, (app, w) =>
    (ApplicationBaseProgressClient.begin ⟨app⟩ w).map (fun w1 => (app, w1))
  | .progress_client_progress step percent, (app, w) =>
    some (app, ApplicationBaseProgressClient.progress ⟨app⟩ step percent w)
  | .progress_client_end canceled, (app, w) =>
    (ApplicationBaseProgressClient.end ⟨app⟩ canceled w).map (fun w1 => (app, w1))
  | .logger_client_div value, (app, w) =>
    some (app, ApplicationBaseLoggerClient.div ⟨app⟩ value w)
  | .logger_client_out value, (app, w) =>
    some (app, ApplicationBaseLoggerClient.out ⟨app⟩ value w)
  | .logger_client_warn value, (app, w) =>
    some (app, ApplicationBaseLoggerClient.warn ⟨app⟩ value w)
  | .logger_client_err value, (app, w) =>
    some (app, ApplicationBaseLoggerClient.err ⟨app⟩ value w)
  | .logger_client_status value, (app, w) =>
    some (app, ApplicationBaseLoggerClient.status ⟨app⟩ value w)

/-- A sequence of operations, first to last. -/
def run_operations (ext : Externals) :
    List Operation → ApplicationBase × World → Option (ApplicationBase × World)
  | [], s => some s
  | op :: ops, s => (op.run ext s).bind (run_operations ext ops)

/-- Calls recorded between the world `before` and the later world `after`. -/
def calls_between (before after : World) : List Event :=
  after.trace.drop before.trace.length

/-- The file name of an `execute_file` call. -/
def Event.executed_file : Event → Option String
  | .execute_file _ file_name => some file_name
  | _ => none

/-- Whether the call is a request to the Logger to unregister a client. -/
def Event.is_unregister_request : Event → Bool
  | .Logger_unregister_client _ => true
  | _ => false

/-- Whether the call is a request to the Logger to register a client. -/
def Event.is_register_request : Event → Bool
  | .Logger_register_client _ => true
  | _ => false

/-- The calls of the loop of `start()` for the files `files` on the interpreter at
`interpreter`. -/
def startup_calls (interpreter : Ptr) : List String → List Event
  | [] => []
  | file :: files =>
    .Logger_out "GEL" ("Loading file: " ++ file) :: .execute_file interpreter file ::
      startup_calls interpreter files

/-- A splitter for examples: the fields of `s` between occurrences of `separator`, empty
fields skipped. -/
def sample_split_string (s : String) (separator : Char) : List String :=
  ((s.data.splitOn separator).filter (fun field => field ≠ [])).map String.mk

/-- Externals for examples. -/
def sample_externals : Externals :=
  { split_string := sample_split_string, ogf_convert_to_string := Nat.repr }

/-! ## MeshGrobPaintTool -/

/-- Data members of `MeshGrobPaintTool`.  The C++ type `double` is the parameter `double`,
of which only its addition is used. -/
structure MeshGrobPaintTool (double : Type) where
  value_ : double
  accumulate_ : Bool
  autorange_ : Bool
  pick_vertices_only_ : Bool
  timestamp_ : double
  update_time_ : double
  picked_element_ : Nat

namespace MeshGrobPaintTool

variable {double : Type}

/-- The property setter `set_value(value)`. -/
def set_value (tool : MeshGrobPaintTool double) (value : double) : MeshGrobPaintTool double :=
  { tool with value_ := value }

/-- The property getter `get_value()`. -/
def get_value (tool : MeshGrobPaintTool double) : double :=
  tool.value_

/-- The property setter `set_accumulate(value)`. -/
def set_accumulate (tool : MeshGrobPaintTool double) (value : Bool) :
    MeshGrobPaintTool double :=
  { tool with accumulate_ := value }

/-- The property getter `get_accumulate()`. -/
def get_accumulate (tool : MeshGrobPaintTool double) : Bool :=
  tool.accumulate_

/-- The property setter `set_autorange(value)`. -/
def set_autorange (tool : MeshGrobPaintTool double) (value : Bool) :
    MeshGrobPaintTool double :=
  { tool with autorange_ := value }

/-- The property getter `get_autorange()`. -/
def get_autorange (tool : MeshGrobPaintTool double) : Bool :=
  tool.autorange_

/-- The property getter `get_pick_vertices_only()`. -/
def get_pick_vertices_only (tool : MeshGrobPaintTool double) : Bool :=
  tool.pick_vertices_only_

/-- Modelled from the spec: the body of `MeshGrobPaintTool::paint`, of which the sources
only have the declaration.  The spec: "painting is direct attribute assignment on a picked
element", "a pick that hits no element is a no-op", and the value is written "respecting
accumulate semantics: replace vs. add".  `picked` is the element the pick resolves to, if
any; `attr` maps each mesh element to its value of the painted attribute. -/
def paint [Add double] (tool : MeshGrobPaintTool double) (picked : Option Nat)
    (attr : Nat → double) : Nat → double :=
  match picked with
  | none => attr
  | some element =>
    fun e =>
      if e = element then
        if tool.accumulate_ then attr element + tool.value_ else tool.value_
      else attr e

end MeshGrobPaintTool

/-! ## Invariant of an application's lifetime -/

/-- What holds of an application and the world at every point between its construction in
the world `w0` and its destruction, `logger_client` and `progress_client` being the two
clients its constructor made: the registry is a set; the Progress client is the
application's or null; the calls since `w0` contain one registration, that of
`logger_client`; and either the application still holds `logger_client` and has not asked
to unregister it, or it holds no logger client, `logger_client` is not registered and was
passed to `unregister_client` once. -/
def Paired (w0 : World) (logger_client progress_client : Ptr)
    (s : ApplicationBase × World) : Prop :=
  s.2.logger_clients.Nodup ∧
  (s.2.progress_client = some progress_client ∨ s.2.progress_client = none) ∧
  ∃ calls, s.2.trace = w0.trace ++ calls ∧
    calls.count (Event.Logger_register_client (some logger_client)) = 1 ∧
    calls.countP Event.is_register_request = 1 ∧
    ((s.1.logger_client_ = some logger_client ∧
        calls.count (Event.Logger_unregister_client (some logger_client)) = 0) ∨
     (s.1.logger_client_ = none ∧ logger_client ∉ s.2.logger_clients ∧
        calls.count (Event.Logger_unregister_client (some logger_client)) = 1))

/-! ## Inputs for examples -/

/-- An application with an interpreter, for examples. -/
def sample_application : ApplicationBase :=
  { interpreter_ := some 7, logger_client_ := some 1, progress_client_ := some 2 }

/-- A world in which `gel:startup_files` names two scripts, for examples. -/
def sample_world_with_startup_files : World :=
  { World.initial with
    environment := [("gel:startup_files", "init.lua;user.lua")],
    logger_clients := [1], progress_client := some 2, next_ptr := 3 }

/-- A world in which the logger client 1 and the progress client 2 of `sample_application`
are registered, for examples. -/
def sample_world_registered : World :=
  { World.initial with logger_clients := [5, 1], progress_client := some 2, next_ptr := 8 }

/-- A world in which the task "Remesh" is running, for examples. -/
def sample_world_in_task : World :=
  { sample_world_registered with current_progress_task := some "Remesh" }

/-- A world whose command line declares `gui:scale`, for examples. -/
def sample_world_with_declared_arg : World :=
  { World.initial with cmdline_declared := ["gui:scale"] }

/-- A default value with a NUL character in it: the three characters `1`, NUL, `2`. -/
def sample_value_with_nul : String :=
  String.mk ['1', Char.ofNat 0, '2']

/-- A paint tool over the integers, for examples. -/
def sample_paint_tool : MeshGrobPaintTool Int :=
  { value_ := 0, accumulate_ := false, autorange_ := false, pick_vertices_only_ := false,
    timestamp_ := 0, update_time_ := 0, picked_element_ := 0 }

end OGF

/-! # Properties -/

namespace OGF

/-! ## Bookkeeping lemmas -/

/-- When the later trace is the earlier one followed by `calls`, these are the calls between. -/
theorem calls_between_of_trace {before after : World} {calls : List Event}
    (h : after.trace = before.trace ++ calls) : calls_between before after = calls := by
  simp [calls_between, h]

theorem startup_calls_executed (interpreter : Ptr) (files : List String) :
    (startup_calls interpreter files).filterMap Event.executed_file = files := by
  induction files with
  | nil => rfl
  | cons file files ih => simp [startup_calls, Event.executed_file, ih]

theorem startup_calls_no_started (interpreter : Ptr) (files : List String) :
    (startup_calls interpreter files).count Event.started = 0 := by
  induction files with
  | nil => rfl
  | cons file files ih => simp [startup_calls, ih]

theorem startup_calls_no_registry_request (interpreter : Ptr) (files : List String) :
    (startup_calls interpreter files).countP Event.is_register_request = 0 ∧
    (startup_calls interpreter files).countP Event.is_unregister_request = 0 := by
  induction files with
  | nil => exact ⟨rfl, rfl⟩
  | cons file files ih =>
    simp [startup_calls, Event.is_register_request, Event.is_unregister_request, ih.1, ih.2]

/-- With an interpreter, the loop of `start()` returns and only appends its calls. -/
theorem execute_startup_files_eq (app : ApplicationBase) (interpreter : Ptr)
    (hi : app.interpreter_ = some interpreter) (files : List String) (w : World) :
    ApplicationBase.execute_startup_files app files w =
      some { w with trace := w.trace ++ startup_calls interpreter files } := by
  induction files generalizing w with
  | nil => simp [ApplicationBase.execute_startup_files, startup_calls]
  | cons file files ih =>
    simp [ApplicationBase.execute_startup_files, hi, ih, startup_calls, emit, Logger.out]

/-- The result of `start()` when `gel:startup_files` has no value. -/
theorem start_without_startup_files (ext : Externals) (app : ApplicationBase) (w : World)
    (h : Environment.has_value w "gel:startup_files" = false) :
    ApplicationBase.start ext app w =
      some { w with stopping_ := false,
                    trace := w.trace ++ [Event.stopping_assigned false, Event.started] } := by
  have h1 : (w.environment.lookup "gel:startup_files").isSome = false := h
  simp [ApplicationBase.start, Environment.has_value, emit, h1]

/-- The result of `start()` when `gel:startup_files` has the value `s` and there is an interpreter. -/
theorem start_with_startup_files (ext : Externals) (app : ApplicationBase) (w : World)
    (s : String) (interpreter : Ptr)
    (hs : w.environment.lookup "gel:startup_files" = some s)
    (hi : app.interpreter_ = some interpreter) :
    ApplicationBase.start ext app w =
      some { w with stopping_ := false,
                    trace := w.trace ++ (Event.stopping_assigned false ::
                      (startup_calls interpreter (ext.split_string s ';') ++ [Event.started])) } := by
  simp [ApplicationBase.start, Environment.has_value, Environment.get_value, emit, hs,
    execute_startup_files_eq app interpreter hi]

/-! ## start() -/

/-- C1: in every state in which the environment has no value for `gel:startup_files`,
`start()` returns, the calls it makes are the assignment `stopping_ = false` followed by
`started()`: no `execute_file` call and exactly one `started()` call.  This holds for
every application, also one without interpreter. -/
theorem start_without_startup_files_only_signals_started (ext : Externals)
    (app : ApplicationBase) (w : World)
    (h : Environment.has_value w "gel:startup_files" = false) :
    ∃ w1, ApplicationBase.start ext app w = some w1 ∧
      w1.trace = w.trace ++ calls_between w w1 ∧
      calls_between w w1 = [Event.stopping_assigned false, Event.started] ∧
      (calls_between w w1).filterMap Event.executed_file = [] ∧
      (calls_between w w1).count Event.started = 1 := by
  refine ⟨_, start_without_startup_files ext app w h, ?_⟩
  have hc : ∀ w1 : World,
      w1.trace = w.trace ++ [Event.stopping_assigned false, Event.started] →
      calls_between w w1 = [Event.stopping_assigned false, Event.started] :=
    fun _ h1 => calls_between_of_trace h1
  rw [hc _ rfl]
  exact ⟨rfl, rfl, rfl, by decide⟩

/-- The initial world has no `gel:startup_files`: `start()` there only signals `started`. -/
theorem start_without_startup_files_only_signals_started_witness :
    Environment.has_value World.initial "gel:startup_files" = false ∧
    ∃ w1, ApplicationBase.start sample_externals sample_application World.initial = some w1 ∧
      w1.trace = World.initial.trace ++ calls_between World.initial w1 ∧
      calls_between World.initial w1 = [Event.stopping_assigned false, Event.started] ∧
      (calls_between World.initial w1).filterMap Event.executed_file = [] ∧
      (calls_between World.initial w1).count Event.started = 1 :=
  ⟨by decide,
   start_without_startup_files_only_signals_started sample_externals sample_application
     World.initial (by decide)⟩

/-- C2: for every value `s` of `gel:startup_files` and every application that owns an
interpreter, `start()` returns with `stopping_` false, and the calls it makes are, in this
order: the assignment `stopping_ = false`; for each element of `split_string(s, ';')`, in
list order, a log line and `execute_file` of that element on the owned interpreter; then
`started()`.  So the files passed to `execute_file` are exactly the elements of the split
list, in order, and `started()` is called once, as the last call. -/
theorem start_executes_each_startup_file_then_signals_started (ext : Externals)
    (app : ApplicationBase) (w : World) (s : String) (interpreter : Ptr)
    (hs : w.environment.lookup "gel:startup_files" = some s)
    (hi : app.interpreter_ = some interpreter) :
    ∃ w1, ApplicationBase.start ext app w = some w1 ∧
      w1.stopping_ = false ∧
      w1.trace = w.trace ++ calls_between w w1 ∧
      calls_between w w1 =
        Event.stopping_assigned false ::
          (startup_calls interpreter (ext.split_string s ';') ++ [Event.started]) ∧
      (calls_between w w1).filterMap Event.executed_file = ext.split_string s ';' ∧
      (∀ i file, Event.execute_file i file ∈ calls_between w w1 → i = interpreter) ∧
      (calls_between w w1).count Event.started = 1 ∧
      (calls_between w w1).getLast? = some Event.started := by
  refine ⟨_, start_with_startup_files ext app w s interpreter hs hi, rfl, ?_⟩
  have hc : ∀ w1 : World,
      w1.trace = w.trace ++ (Event.stopping_assigned false ::
        (startup_calls interpreter (ext.split_string s ';') ++ [Event.started])) →
      calls_between w w1 = Event.stopping_assigned false ::
        (startup_calls interpreter (ext.split_string s ';') ++ [Event.started]) :=
    fun _ h1 => calls_between_of_trace h1
  rw [hc _ rfl]
  refine ⟨rfl, rfl, ?_, ?_, ?_, ?_⟩
  · simp [List.filterMap_cons, List.filterMap_append, Event.executed_file,
      startup_calls_executed]
  · intro i file hmem
    have hin : Event.execute_file i file ∈ startup_calls interpreter (ext.split_string s ';') := by
      simpa using hmem
    generalize ext.split_string s ';' = files at hin
    induction files with
    | nil => simp [startup_calls] at hin
    | cons f fs ih =>
      simp only [startup_calls, List.mem_cons] at hin
      rcases hin with hin | hin | hin
      · cases hin
      · cases hin; rfl
      · exact ih hin
  · simp [List.count_cons, List.count_append, startup_calls_no_started]
  · rw [List.getLast?_eq_getLast _ (by simp)]
    simp

/-- The sample world names `init.lua;user.lua` and the sample application owns the
interpreter 7: `start()` there runs the split list on it and then signals `started`. -/
theorem start_executes_each_startup_file_then_signals_started_witness :
    sample_world_with_startup_files.environment.lookup "gel:startup_files"
      = some "init.lua;user.lua" ∧
    sample_application.interpreter_ = some 7 ∧
    ∃ w1, ApplicationBase.start sample_externals sample_application
        sample_world_with_startup_files = some w1 ∧
      w1.stopping_ = false ∧
      w1.trace = sample_world_with_startup_files.trace ++
        calls_between sample_world_with_startup_files w1 ∧
      calls_between sample_world_with_startup_files w1 =
        Event.stopping_assigned false ::
          (startup_calls 7 (sample_externals.split_string "init.lua;user.lua" ';') ++
            [Event.started]) ∧
      (calls_between sample_world_with_startup_files w1).filterMap Event.executed_file =
        sample_externals.split_string "init.lua;user.lua" ';' ∧
      (∀ i file, Event.execute_file i file ∈ calls_between sample_world_with_startup_files w1 →
        i = 7) ∧
      (calls_between sample_world_with_startup_files w1).count Event.started = 1 ∧
      (calls_between sample_world_with_startup_files w1).getLast? = some Event.started :=
  ⟨by decide, rfl,
   start_executes_each_startup_file_then_signals_started sample_externals sample_application
     sample_world_with_startup_files "init.lua;user.lua" 7 (by decide) rfl⟩

/-! ## stop() -/

/-- The two calls of `stop()`. -/
theorem stop_calls (app : ApplicationBase) (w : World) :
    (ApplicationBase.stop app w).2.trace =
      w.trace ++ [Event.Logger_unregister_client app.logger_client_,
                  Event.Progress_set_client none] := by
  cases hc : app.logger_client_ <;>
    simp [ApplicationBase.stop, Logger.unregister_client, Progress.set_client, emit, hc]

/-- The Logger registry after `stop()`. -/
theorem stop_logger_clients (app : ApplicationBase) (w : World) :
    (ApplicationBase.stop app w).2.logger_clients =
      match app.logger_client_ with
      | none => w.logger_clients
      | some c => w.logger_clients.filter (fun x => x ≠ c) := by
  cases hc : app.logger_client_ <;>
    simp [ApplicationBase.stop, Logger.unregister_client, Progress.set_client, emit, hc]

/-- C5: in every state, after `stop()` the logger client the application held is not in the
Logger registry, `logger_client_` is null, the Progress client is null, and `interpreter_`
is what it was before the call; the calls made are `unregister_client(logger_client_)`
followed by `Progress::set_client(nullptr)`. -/
theorem stop_unregisters_and_keeps_interpreter (app : ApplicationBase) (w : World) :
    (∀ client, app.logger_client_ = some client →
      client ∉ (ApplicationBase.stop app w).2.logger_clients) ∧
    (ApplicationBase.stop app w).1.logger_client_ = none ∧
    (ApplicationBase.stop app w).2.progress_client = none ∧
    (ApplicationBase.stop app w).1.interpreter_ = app.interpreter_ ∧
    calls_between w (ApplicationBase.stop app w).2 =
      [Event.Logger_unregister_client app.logger_client_, Event.Progress_set_client none] := by
  refine ⟨?_, rfl, rfl, rfl, calls_between_of_trace (stop_calls app w)⟩
  intro client hc
  rw [stop_logger_clients, hc]
  simp [List.mem_filter]

/-- The sample application holds the logger client 1, registered in the sample world:
after `stop()` it is not registered and the interpreter is still 7. -/
theorem stop_unregisters_and_keeps_interpreter_witness :
    sample_application.logger_client_ = some 1 ∧
    1 ∈ sample_world_registered.logger_clients ∧
    1 ∉ (ApplicationBase.stop sample_application sample_world_registered).2.logger_clients ∧
    (ApplicationBase.stop sample_application sample_world_registered).1.interpreter_ = some 7 :=
  ⟨rfl, by decide,
   (stop_unregisters_and_keeps_interpreter sample_application sample_world_registered).1 1 rfl,
   (stop_unregisters_and_keeps_interpreter sample_application sample_world_registered).2.2.2.1⟩

/-- In every state, a second `stop()` leaves `logger_client_`, `interpreter_`, the Logger
registry and the Progress client as the first one left them, and adds two calls to the
trace, one of them an unregister request to the Logger, for the null pointer. -/
theorem second_stop_requests_unregister_of_null (app : ApplicationBase) (w : World) :
    ApplicationBase.stop (ApplicationBase.stop app w).1 (ApplicationBase.stop app w).2 =
      ((ApplicationBase.stop app w).1,
       { (ApplicationBase.stop app w).2 with
         trace := (ApplicationBase.stop app w).2.trace ++
           [Event.Logger_unregister_client none, Event.Progress_set_client none] }) ∧
    (calls_between (ApplicationBase.stop app w).2
      (ApplicationBase.stop (ApplicationBase.stop app w).1
        (ApplicationBase.stop app w).2).2).countP Event.is_unregister_request = 1 := by
  constructor
  · simp [ApplicationBase.stop, Logger.unregister_client, Progress.set_client, emit]
  · rw [calls_between_of_trace (stop_calls _ _)]
    rfl

/-- C3: `stop()` calls `unregister_client(logger_client_)` without the test
`logger_client_ != nullptr` that the destructor makes before the same call.  For the
application built by the constructor in the initial world and stopped once, the calls of a
second `stop()` are `unregister_client(nullptr)` and `Progress::set_client(nullptr)`: the
Logger does receive an unregister request.  The destructor, run in the same state, only
calls `Progress::set_client(nullptr)`. -/
theorem second_stop_at_constructed_application :
    calls_between
      (ApplicationBase.stop (ApplicationBase.constructor (some 7) World.initial).1
        (ApplicationBase.constructor (some 7) World.initial).2).2
      (ApplicationBase.stop
        (ApplicationBase.stop (ApplicationBase.constructor (some 7) World.initial).1
          (ApplicationBase.constructor (some 7) World.initial).2).1
        (ApplicationBase.stop (ApplicationBase.constructor (some 7) World.initial).1
          (ApplicationBase.constructor (some 7) World.initial).2).2).2
      = [Event.Logger_unregister_client none, Event.Progress_set_client none] ∧
    calls_between
      (ApplicationBase.stop (ApplicationBase.constructor (some 7) World.initial).1
        (ApplicationBase.constructor (some 7) World.initial).2).2
      (ApplicationBase.destructor
        (ApplicationBase.stop (ApplicationBase.constructor (some 7) World.initial).1
          (ApplicationBase.constructor (some 7) World.initial).2).1
        (ApplicationBase.stop (ApplicationBase.constructor (some 7) World.initial).1
          (ApplicationBase.constructor (some 7) World.initial).2).2)
      = [Event.Progress_set_client none] := by
  decide

/-! ## begin(), end() and progress() -/

/-- The result of `end(canceled)` while the task `t` is running. -/
theorem end_eq (app : ApplicationBase) (t : String) (canceled : Bool) (w : World)
    (ht : w.current_progress_task = some t) :
    ApplicationBase.end app canceled w =
      some { w with trace := w.trace ++
        ((if canceled then [Event.Logger_out t "interrupted.", Event.notify_progress 0]
          else []) ++ [Event.notify_progress_end]) } := by
  cases canceled <;> simp [ApplicationBase.end, ht, emit, Logger.out]

/-- C7: for every current task name `t` and every `canceled`, `end(canceled)` returns and
its calls are: when `canceled`, the log line "interrupted." under `t`, then
`notify_progress(0)`, then `notify_progress_end()`; when not `canceled`, only
`notify_progress_end()`.  So `notify_progress_end()` is called once and last, and the log
line and the `notify_progress(0)` call each occur if and only if `canceled` is true. -/
theorem end_notifies_end_last_and_interruption_iff_canceled (app : ApplicationBase)
    (t : String) (canceled : Bool) (w : World) (ht : w.current_progress_task = some t) :
    ∃ w1, ApplicationBase.end app canceled w = some w1 ∧
      w1.trace = w.trace ++ calls_between w w1 ∧
      calls_between w w1 =
        (if canceled then [Event.Logger_out t "interrupted.", Event.notify_progress 0]
         else []) ++ [Event.notify_progress_end] ∧
      (calls_between w w1).count Event.notify_progress_end = 1 ∧
      (calls_between w w1).getLast? = some Event.notify_progress_end ∧
      (Event.Logger_out t "interrupted." ∈ calls_between w w1 ↔ canceled = true) ∧
      (Event.notify_progress 0 ∈ calls_between w w1 ↔ canceled = true) ∧
      (canceled = false → calls_between w w1 = [Event.notify_progress_end]) := by
  refine ⟨_, end_eq app t canceled w ht, ?_⟩
  have hc : ∀ w1 : World,
      w1.trace = w.trace ++
        ((if canceled then [Event.Logger_out t "interrupted.", Event.notify_progress 0]
          else []) ++ [Event.notify_progress_end]) →
      calls_between w w1 =
        (if canceled then [Event.Logger_out t "interrupted.", Event.notify_progress 0]
         else []) ++ [Event.notify_progress_end] :=
    fun _ h1 => calls_between_of_trace h1
  rw [hc _ rfl]
  cases canceled <;> simp

/-- The task "Remesh" is running in the sample world: `end(true)` there logs the
interruption, notifies progress 0 and then the end. -/
theorem end_notifies_end_last_and_interruption_iff_canceled_witness :
    sample_world_in_task.current_progress_task = some "Remesh" ∧
    ∃ w1, ApplicationBase.end sample_application true sample_world_in_task = some w1 ∧
      w1.trace = sample_world_in_task.trace ++ calls_between sample_world_in_task w1 ∧
      calls_between sample_world_in_task w1 =
        (if true then [Event.Logger_out "Remesh" "interrupted.", Event.notify_progress 0]
         else []) ++ [Event.notify_progress_end] ∧
      (calls_between sample_world_in_task w1).count Event.notify_progress_end = 1 ∧
      (calls_between sample_world_in_task w1).getLast? = some Event.notify_progress_end ∧
      (Event.Logger_out "Remesh" "interrupted." ∈ calls_between sample_world_in_task w1 ↔
        true = true) ∧
      (Event.notify_progress 0 ∈ calls_between sample_world_in_task w1 ↔ true = true) ∧
      (true = false → calls_between sample_world_in_task w1 = [Event.notify_progress_end]) :=
  ⟨rfl,
   end_notifies_end_last_and_interruption_iff_canceled sample_application "Remesh" true
     sample_world_in_task rfl⟩

/-- C9: for every `step` and `percent`, the calls of `progress(step, percent)` are
`notify_progress(percent)` followed by `draw()`, each once; the resulting state is the same
for every other `step`; and the progress client's `progress(step, percent)` is the
application's `progress` with the same two arguments. -/
theorem progress_notifies_then_draws (app : ApplicationBase) (step percent : Nat)
    (w : World) (client : ApplicationBaseProgressClient) :
    (ApplicationBase.progress app step percent w).trace =
      w.trace ++ calls_between w (ApplicationBase.progress app step percent w) ∧
    calls_between w (ApplicationBase.progress app step percent w) =
      [Event.notify_progress percent, Event.draw] ∧
    (∀ other_step, ApplicationBase.progress app other_step percent w =
      ApplicationBase.progress app step percent w) ∧
    ApplicationBaseProgressClient.progress client step percent w =
      ApplicationBase.progress client.application_base_ step percent w ∧
    calls_between w (ApplicationBaseProgressClient.progress client step percent w) =
      [Event.notify_progress percent, Event.draw] := by
  have h1 : (ApplicationBase.progress app step percent w).trace =
      w.trace ++ [Event.notify_progress percent, Event.draw] := by
    simp [ApplicationBase.progress, ApplicationBase.draw, emit]
  have h2 : (ApplicationBaseProgressClient.progress client step percent w).trace =
      w.trace ++ [Event.notify_progress percent, Event.draw] := by
    simp [ApplicationBaseProgressClient.progress, ApplicationBase.progress,
      ApplicationBase.draw, emit]
  rw [calls_between_of_trace h1, calls_between_of_trace h2]
  exact ⟨h1, rfl, fun _ => rfl, rfl, rfl⟩

/-! ## declare_preference_variable() -/

/-- A string without NUL is its own C string. -/
theorem c_str_of_no_nul (s : String) (h : Char.ofNat 0 ∉ s.data) : c_str s = s := by
  have hall : s.data.takeWhile (fun c => decide (c ≠ Char.ofNat 0)) = s.data := by
    rw [List.takeWhile_eq_self_iff]
    intro c hc
    have : c ≠ Char.ofNat 0 := fun heq => h (heq ▸ hc)
    simpa using this
  show String.mk (s.data.takeWhile (fun c => decide (c ≠ Char.ofNat 0))) = s
  rw [hall]

/-- The one call of `declare_preference_variable`. -/
theorem declare_preference_variable_trace (app : ApplicationBase) (name value help : String)
    (w : World) :
    (ApplicationBase.declare_preference_variable app name value help w).trace =
      w.trace ++
        (if CmdLine.arg_is_declared w name then
          [Event.Preferences_declare_preference_variable name]
        else [Event.Preferences_declare_preference_variable_default name (c_str value) help]) := by
  cases hd : CmdLine.arg_is_declared w name <;>
    simp [ApplicationBase.declare_preference_variable, hd, emit]

/-- C8, as stated, fails: `name` is not declared on the command line, and yet no call declares
it with the given default value, because the callee receives `value.c_str()`, which ends at
the first NUL of `value`. -/
theorem declare_preference_variable_truncates_default_at_nul :
    CmdLine.arg_is_declared World.initial "gui:scale" = false ∧
    Event.Preferences_declare_preference_variable_default "gui:scale" sample_value_with_nul
        "scaling factor" ∉
      calls_between World.initial
        (ApplicationBase.declare_preference_variable sample_application "gui:scale"
          sample_value_with_nul "scaling factor" World.initial) ∧
    calls_between World.initial
        (ApplicationBase.declare_preference_variable sample_application "gui:scale"
          sample_value_with_nul "scaling factor" World.initial) =
      [Event.Preferences_declare_preference_variable_default "gui:scale" "1"
        "scaling factor"] := by
  decide

/-- C8, amended: the only call of `declare_preference_variable(name, value, help)` is
`Preferences::declare_preference_variable(name)` when `name` is declared on the command
line, and otherwise `Preferences::declare_preference_variable(name, value.c_str(), help)`,
whose default is `value` up to its first NUL, hence `value` itself when it has no NUL.
When `name` is declared the resulting state is the same for every `value` and `help`: the
supplied value and help are not used, and no call carries a value for `name`. -/
theorem declare_preference_variable_calls (app : ApplicationBase) (name value help : String)
    (w : World) :
    (ApplicationBase.declare_preference_variable app name value help w).trace =
      w.trace ++
        calls_between w (ApplicationBase.declare_preference_variable app name value help w) ∧
    calls_between w (ApplicationBase.declare_preference_variable app name value help w) =
      (if CmdLine.arg_is_declared w name then
        [Event.Preferences_declare_preference_variable name]
      else [Event.Preferences_declare_preference_variable_default name (c_str value) help]) ∧
    (Char.ofNat 0 ∉ value.data → c_str value = value) ∧
    (CmdLine.arg_is_declared w name = true → ∀ other_value other_help,
      ApplicationBase.declare_preference_variable app name other_value other_help w =
        ApplicationBase.declare_preference_variable app name value help w) := by
  rw [calls_between_of_trace (declare_preference_variable_trace app name value help w)]
  refine ⟨declare_preference_variable_trace app name value help w, rfl,
    c_str_of_no_nul value, ?_⟩
  intro hd other_value other_help
  simp [ApplicationBase.declare_preference_variable, hd]

/-- For the NUL-free default "1.5": declared on the command line, only the one-argument
call is made; not declared, the variable is declared with the default "1.5". -/
theorem declare_preference_variable_calls_witness :
    CmdLine.arg_is_declared sample_world_with_declared_arg "gui:scale" = true ∧
    Char.ofNat 0 ∉ "1.5".data ∧
    c_str "1.5" = "1.5" ∧
    calls_between sample_world_with_declared_arg
        (ApplicationBase.declare_preference_variable sample_application "gui:scale" "1.5"
          "scaling factor" sample_world_with_declared_arg) =
      [Event.Preferences_declare_preference_variable "gui:scale"] ∧
    calls_between World.initial
        (ApplicationBase.declare_preference_variable sample_application "gui:scale" "1.5"
          "scaling factor" World.initial) =
      [Event.Preferences_declare_preference_variable_default "gui:scale" "1.5"
        "scaling factor"] :=
  ⟨by decide, by decide,
   (declare_preference_variable_calls sample_application "gui:scale" "1.5" "scaling factor"
     World.initial).2.2.1 (by decide),
   (declare_preference_variable_calls sample_application "gui:scale" "1.5" "scaling factor"
     sample_world_with_declared_arg).2.1,
   by decide⟩

/-! ## MeshGrobPaintTool::paint -/

/-- C6: for every element `e` and values `v1`, `v2`, after `set_accumulate(accumulate)`,
painting `e` with value `v1` and then with value `v2` leaves the attribute at `e` equal to
(previous value + `v1`) + `v2` when `accumulate` is set and equal to `v2` when it is not. -/
theorem paint_twice_accumulates_or_replaces {double : Type} [Add double]
    (tool : MeshGrobPaintTool double) (accumulate : Bool) (e : Nat) (v1 v2 : double)
    (attr : Nat → double) :
    (((tool.set_accumulate accumulate).set_value v1).set_value v2).paint (some e)
        (((tool.set_accumulate accumulate).set_value v1).paint (some e) attr) e =
      if accumulate then attr e + v1 + v2 else v2 := by
  cases accumulate <;>
    simp [MeshGrobPaintTool.paint, MeshGrobPaintTool.set_value,
      MeshGrobPaintTool.set_accumulate]

/-- Over the integers, painting 3 and then 4 on an element whose value is 10 gives 17
when accumulating and 4 when not. -/
theorem paint_twice_accumulates_or_replaces_witness :
    (((sample_paint_tool.set_accumulate true).set_value 3).set_value 4).paint (some 2)
        (((sample_paint_tool.set_accumulate true).set_value 3).paint (some 2)
          (fun _ => 10)) 2 = 17 ∧
    (((sample_paint_tool.set_accumulate false).set_value 3).set_value 4).paint (some 2)
        (((sample_paint_tool.set_accumulate false).set_value 3).paint (some 2)
          (fun _ => 10)) 2 = 4 :=
  ⟨(paint_twice_accumulates_or_replaces sample_paint_tool true 2 3 4 (fun _ => 10)).trans
     (by decide),
   (paint_twice_accumulates_or_replaces sample_paint_tool false 2 3 4 (fun _ => 10)).trans
     (by decide)⟩

/-! ## Lifetime of an application -/

theorem startup_calls_not_registry (interpreter : Ptr) (files : List String) (c : Option Ptr) :
    Event.Logger_register_client c ∉ startup_calls interpreter files ∧
    Event.Logger_unregister_client c ∉ startup_calls interpreter files := by
  induction files with
  | nil => simp [startup_calls]
  | cons file files ih => simp [startup_calls, ih.1, ih.2]

/-- With an interpreter, `start()` returns; it changes `stopping_` and the trace only, and
none of its calls is a request to the Logger registry. -/
theorem start_frame (ext : Externals) (app : ApplicationBase) (interpreter : Ptr)
    (hi : app.interpreter_ = some interpreter) (w : World) :
    ∃ calls, ApplicationBase.start ext app w =
        some { w with stopping_ := false, trace := w.trace ++ calls } ∧
      calls.countP Event.is_register_request = 0 ∧
      ∀ c, calls.count (Event.Logger_register_client c) = 0 ∧
        calls.count (Event.Logger_unregister_client c) = 0 := by
  cases hv : w.environment.lookup "gel:startup_files" with
  | none =>
    refine ⟨_, start_without_startup_files ext app w ?_, by decide, ?_⟩
    · simp [Environment.has_value, hv]
    · intro c
      simp
  | some s =>
    refine ⟨_, start_with_startup_files ext app w s interpreter hv hi, ?_, ?_⟩
    · simp [List.countP_cons, List.countP_append, Event.is_register_request,
        (startup_calls_no_registry_request interpreter _).1]
    · intro c
      have hn := startup_calls_not_registry interpreter (ext.split_string s ';') c
      simp [List.count_cons, List.count_append, List.count_eq_zero_of_not_mem hn.1,
        List.count_eq_zero_of_not_mem hn.2]

/-- The constructor establishes the lifetime invariant for the two clients it makes. -/
theorem paired_constructor (interpreter : Option Ptr) (w0 : World)
    (hset : w0.logger_clients.Nodup) :
    (ApplicationBase.constructor interpreter w0).1 =
      { interpreter_ := interpreter, logger_client_ := some w0.next_ptr,
        progress_client_ := some (w0.next_ptr + 1) } ∧
    Paired w0 w0.next_ptr (w0.next_ptr + 1) (ApplicationBase.constructor interpreter w0) := by
  refine ⟨rfl, ?_, ?_, ?_⟩
  · by_cases hm : w0.next_ptr ∈ w0.logger_clients
    · simpa [ApplicationBase.constructor, allocate, Logger.register_client,
        Progress.set_client, emit, hm] using hset
    · simp only [ApplicationBase.constructor, allocate, Logger.register_client,
        Progress.set_client, emit, hm, if_false]
      exact List.Nodup.append hset (List.nodup_singleton _) (by simpa using hm)
  · left
    by_cases hm : w0.next_ptr ∈ w0.logger_clients <;>
      simp [ApplicationBase.constructor, allocate, Logger.register_client,
        Progress.set_client, emit, hm]
  · refine ⟨[Event.Logger_register_client (some w0.next_ptr),
      Event.Progress_set_client (some (w0.next_ptr + 1))], ?_, ?_, ?_, ?_⟩
    · by_cases hm : w0.next_ptr ∈ w0.logger_clients <;>
        simp [ApplicationBase.constructor, allocate, Logger.register_client,
          Progress.set_client, emit, hm]
    · simp
    · simp [List.countP_cons, Event.is_register_request]
    · left
      exact ⟨rfl, by simp⟩

/-- With an interpreter, `start()` returns and keeps the lifetime invariant. -/
theorem paired_start (ext : Externals) (w0 : World) (lc pc : Ptr) (interpreter : Ptr)
    (s : ApplicationBase × World) (hi : s.1.interpreter_ = some interpreter)
    (hp : Paired w0 lc pc s) :
    ∃ s1, Operation.run ext Operation.start s = some s1 ∧ s1.1 = s.1 ∧ Paired w0 lc pc s1 := by
  obtain ⟨app, w⟩ := s
  obtain ⟨calls1, hstart, hreg, hcount⟩ := start_frame ext app interpreter hi w
  obtain ⟨hnd, hpc, calls, htrace, hc1, hc2, hcase⟩ := hp
  refine ⟨(app, { w with stopping_ := false, trace := w.trace ++ calls1 }), ?_, rfl,
    hnd, hpc, calls ++ calls1, ?_, ?_, ?_, ?_⟩
  · simp [Operation.run, hstart]
  · show w.trace ++ calls1 = w0.trace ++ (calls ++ calls1)
    rw [show w.trace = w0.trace ++ calls from htrace, List.append_assoc]
  · rw [List.count_append, hc1, (hcount _).1]
  · rw [List.countP_append, hc2, hreg]
  · rcases hcase with ⟨hl, hu⟩ | ⟨hl, hm, hu⟩
    · left
      exact ⟨hl, by rw [List.count_append, hu, (hcount _).2]⟩
    · right
      exact ⟨hl, hm, by rw [List.count_append, hu, (hcount _).2]⟩

/-- The call `stop()` keeps the lifetime invariant. -/
theorem paired_stop (ext : Externals) (w0 : World) (lc pc : Ptr)
    (s : ApplicationBase × World) (hp : Paired w0 lc pc s) :
    ∃ s1, Operation.run ext Operation.stop s = some s1 ∧
      s1.1.interpreter_ = s.1.interpreter_ ∧ Paired w0 lc pc s1 := by
  obtain ⟨app, w⟩ := s
  obtain ⟨hnd, hpc, calls, htrace, hc1, hc2, hcase⟩ := hp
  have htrace1 : w.trace = w0.trace ++ calls := htrace
  refine ⟨ApplicationBase.stop app w, rfl, rfl, ?_, Or.inr rfl,
    calls ++ [Event.Logger_unregister_client app.logger_client_,
      Event.Progress_set_client none], ?_, ?_, ?_, ?_⟩
  · rw [stop_logger_clients]
    cases app.logger_client_ with
    | none => exact hnd
    | some c => exact hnd.filter _
  · rw [stop_calls, htrace1, List.append_assoc]
  · rw [List.count_append, hc1]
    simp
  · rw [List.countP_append, hc2]
    simp [List.countP_cons, Event.is_register_request]
  · right
    refine ⟨rfl, ?_, ?_⟩
    · rw [stop_logger_clients]
      rcases hcase with ⟨hl, _⟩ | ⟨hl, hm, _⟩
      · have hl1 : app.logger_client_ = some lc := hl
        rw [hl1]
        simp [List.mem_filter]
      · have hl1 : app.logger_client_ = none := hl
        rw [hl1]
        exact hm
    · rcases hcase with ⟨hl, hu⟩ | ⟨hl, _, hu⟩
      · have hl1 : app.logger_client_ = some lc := hl
        rw [List.count_append, hu, hl1]
        simp
      · have hl1 : app.logger_client_ = none := hl
        rw [List.count_append, hu, hl1]
        simp

/-- Every sequence of `start()` and `stop()` calls returns and keeps the lifetime invariant. -/
theorem paired_run_operations (ext : Externals) (w0 : World) (lc pc : Ptr)
    (interpreter : Ptr) (ops : List Operation)
    (hops : ∀ op ∈ ops, op = Operation.start ∨ op = Operation.stop)
    (s : ApplicationBase × World) (hi : s.1.interpreter_ = some interpreter)
    (hp : Paired w0 lc pc s) :
    ∃ s1, run_operations ext ops s = some s1 ∧ Paired w0 lc pc s1 := by
  induction ops generalizing s with
  | nil => exact ⟨s, rfl, hp⟩
  | cons op ops ih =>
    have hrest : ∀ o ∈ ops, o = Operation.start ∨ o = Operation.stop :=
      fun o ho => hops o (List.mem_cons_of_mem _ ho)
    rcases hops op (List.mem_cons_self _ _) with hop | hop
    · obtain ⟨s1, hrun, happ, hp1⟩ := paired_start ext w0 lc pc interpreter s hi hp
      obtain ⟨s2, hrun2, hp2⟩ := ih hrest s1 (happ ▸ hi) hp1
      exact ⟨s2, by simp [run_operations, hop, hrun, hrun2], hp2⟩
    · obtain ⟨s1, hrun, happ, hp1⟩ := paired_stop ext w0 lc pc s hp
      obtain ⟨s2, hrun2, hp2⟩ := ih hrest s1 (happ ▸ hi) hp1
      exact ⟨s2, by simp [run_operations, hop, hrun, hrun2], hp2⟩

/-- From the lifetime invariant, the state of the registry and the counts after the destructor. -/
theorem paired_destructor (w0 : World) (lc pc : Ptr) (s : ApplicationBase × World)
    (hp : Paired w0 lc pc s) :
    ∃ calls, (ApplicationBase.destructor s.1 s.2).trace = w0.trace ++ calls ∧
      calls.count (Event.Logger_register_client (some lc)) = 1 ∧
      calls.countP Event.is_register_request = 1 ∧
      calls.count (Event.Logger_unregister_client (some lc)) = 1 ∧
      lc ∉ (ApplicationBase.destructor s.1 s.2).logger_clients ∧
      (ApplicationBase.destructor s.1 s.2).progress_client = none := by
  obtain ⟨app, w⟩ := s
  obtain ⟨_, _, calls, htrace, hc1, hc2, hcase⟩ := hp
  have htrace1 : w.trace = w0.trace ++ calls := htrace
  rcases hcase with ⟨hl, hu⟩ | ⟨hl, hm, hu⟩
  · have hl1 : app.logger_client_ = some lc := hl
    refine ⟨calls ++ [Event.Logger_unregister_client (some lc),
      Event.Progress_set_client none], ?_, ?_, ?_, ?_, ?_, ?_⟩
    · simp [ApplicationBase.destructor, hl1, Logger.unregister_client, Progress.set_client,
        emit, htrace1]
    · rw [List.count_append, hc1]
      simp
    · rw [List.countP_append, hc2]
      simp [List.countP_cons, Event.is_register_request]
    · rw [List.count_append, hu]
      simp
    · simp [ApplicationBase.destructor, hl1, Logger.unregister_client, Progress.set_client,
        emit, List.mem_filter]
    · simp [ApplicationBase.destructor, Progress.set_client]
  · have hl1 : app.logger_client_ = none := hl
    refine ⟨calls ++ [Event.Progress_set_client none], ?_, ?_, ?_, ?_, ?_, ?_⟩
    · simp [ApplicationBase.destructor, hl1, Progress.set_client, emit, htrace1]
    · rw [List.count_append, hc1]
      simp
    · rw [List.countP_append, hc2]
      simp [List.countP_cons, Event.is_register_request]
    · rw [List.count_append, hu]
      simp
    · simpa [ApplicationBase.destructor, hl1, Progress.set_client, emit] using hm
    · simp [ApplicationBase.destructor, Progress.set_client]

/-- C4: take an application built with an interpreter in a world whose Logger registry is a
set, then any finite sequence of `start()` and `stop()` calls, then the destructor.  Every
call returns.  Over the whole lifetime the Logger receives one registration request, which
is for the logger client made by the constructor, and that client is passed to
`unregister_client` exactly once.  After every prefix of the sequence the registry holds
this client at most once and the Progress client is the application's progress client or
null.  After the destructor the logger client is not in the registry and the Progress
client is null. -/
theorem registration_and_unregistration_are_paired (ext : Externals) (interpreter : Ptr)
    (w0 : World) (ops : List Operation)
    (hset : w0.logger_clients.Nodup)
    (hops : ∀ op ∈ ops, op = Operation.start ∨ op = Operation.stop) :
    ∃ logger_client progress_client alive,
      (ApplicationBase.constructor (some interpreter) w0).1.logger_client_ =
        some logger_client ∧
      (ApplicationBase.constructor (some interpreter) w0).1.progress_client_ =
        some progress_client ∧
      run_operations ext ops (ApplicationBase.constructor (some interpreter) w0) =
        some alive ∧
      (ApplicationBase.destructor alive.1 alive.2).trace =
        w0.trace ++ calls_between w0 (ApplicationBase.destructor alive.1 alive.2) ∧
      (calls_between w0 (ApplicationBase.destructor alive.1 alive.2)).count
        (Event.Logger_register_client (some logger_client)) = 1 ∧
      (calls_between w0 (ApplicationBase.destructor alive.1 alive.2)).countP
        Event.is_register_request = 1 ∧
      (calls_between w0 (ApplicationBase.destructor alive.1 alive.2)).count
        (Event.Logger_unregister_client (some logger_client)) = 1 ∧
      (∀ k, ∃ mid,
        run_operations ext (ops.take k) (ApplicationBase.constructor (some interpreter) w0) =
          some mid ∧
        mid.2.logger_clients.count logger_client ≤ 1 ∧
        (mid.2.progress_client = some progress_client ∨ mid.2.progress_client = none)) ∧
      logger_client ∉ (ApplicationBase.destructor alive.1 alive.2).logger_clients ∧
      (ApplicationBase.destructor alive.1 alive.2).progress_client = none := by
  obtain ⟨happ, hp0⟩ := paired_constructor (some interpreter) w0 hset
  have hi : (ApplicationBase.constructor (some interpreter) w0).1.interpreter_ =
      some interpreter := by rw [happ]
  obtain ⟨alive, hrun, hp⟩ :=
    paired_run_operations ext w0 w0.next_ptr (w0.next_ptr + 1) interpreter ops hops _ hi hp0
  obtain ⟨calls, htrace, hc1, hc2, hc3, hnot, hnone⟩ :=
    paired_destructor w0 w0.next_ptr (w0.next_ptr + 1) alive hp
  refine ⟨w0.next_ptr, w0.next_ptr + 1, alive, by rw [happ], by rw [happ], hrun, ?_⟩
  rw [calls_between_of_trace htrace]
  refine ⟨htrace, hc1, hc2, hc3, ?_, hnot, hnone⟩
  intro k
  obtain ⟨mid, hmid, hpm⟩ :=
    paired_run_operations ext w0 w0.next_ptr (w0.next_ptr + 1) interpreter (ops.take k)
      (fun op hop => hops op (List.mem_of_mem_take hop)) _ hi hp0
  exact ⟨mid, hmid, List.nodup_iff_count_le_one.mp hpm.1 _, hpm.2.1⟩

/-- The lifetime construct, `start()`, `stop()`, `stop()`, `start()`, destruct in the
sample world with startup files. -/
theorem registration_and_unregistration_are_paired_witness :
    sample_world_with_startup_files.logger_clients.Nodup ∧
    (∀ op ∈ [Operation.start, Operation.stop, Operation.stop, Operation.start],
      op = Operation.start ∨ op = Operation.stop) ∧
    ∃ logger_client progress_client alive,
      (ApplicationBase.constructor (some 7) sample_world_with_startup_files).1.logger_client_ =
        some logger_client ∧
      (ApplicationBase.constructor (some 7) sample_world_with_startup_files).1.progress_client_ =
        some progress_client ∧
      run_operations sample_externals
          [Operation.start, Operation.stop, Operation.stop, Operation.start]
          (ApplicationBase.constructor (some 7) sample_world_with_startup_files) =
        some alive ∧
      (ApplicationBase.destructor alive.1 alive.2).trace =
        sample_world_with_startup_files.trace ++
          calls_between sample_world_with_startup_files
            (ApplicationBase.destructor alive.1 alive.2) ∧
      (calls_between sample_world_with_startup_files
          (ApplicationBase.destructor alive.1 alive.2)).count
        (Event.Logger_register_client (some logger_client)) = 1 ∧
      (calls_between sample_world_with_startup_files
          (ApplicationBase.destructor alive.1 alive.2)).countP
        Event.is_register_request = 1 ∧
      (calls_between sample_world_with_startup_files
          (ApplicationBase.destructor alive.1 alive.2)).count
        (Event.Logger_unregister_client (some logger_client)) = 1 ∧
      (∀ k, ∃ mid,
        run_operations sample_externals
            ([Operation.start, Operation.stop, Operation.stop, Operation.start].take k)
            (ApplicationBase.constructor (some 7) sample_world_with_startup_files) =
          some mid ∧
        mid.2.logger_clients.count logger_client ≤ 1 ∧
        (mid.2.progress_client = some progress_client ∨ mid.2.progress_client = none)) ∧
      logger_client ∉ (ApplicationBase.destructor alive.1 alive.2).logger_clients ∧
      (ApplicationBase.destructor alive.1 alive.2).progress_client = none :=
  ⟨by decide, by decide,
   registration_and_unregistration_are_paired sample_externals 7
     sample_world_with_startup_files
     [Operation.start, Operation.stop, Operation.stop, Operation.start]
     (by decide) (by decide)⟩

/-! ## The static stopping_ -/

theorem execute_startup_files_stopping (app : ApplicationBase) (files : List String)
    (w w1 : World) (h : ApplicationBase.execute_startup_files app files w = some w1) :
    w1.stopping_ = w.stopping_ := by
  induction files generalizing w with
  | nil =>
    simp only [ApplicationBase.execute_startup_files, Option.some.injEq] at h
    rw [← h]
  | cons file files ih =>
    cases hi : app.interpreter_ with
    | none => simp [ApplicationBase.execute_startup_files, hi] at h
    | some i =>
      simp only [ApplicationBase.execute_startup_files, hi] at h
      rw [ih _ h]
      rfl

theorem start_stopping (ext : Externals) (app : ApplicationBase) (w w1 : World)
    (h : ApplicationBase.start ext app w = some w1) : w1.stopping_ = false := by
  unfold ApplicationBase.start at h
  simp only [Option.map_eq_some'] at h
  obtain ⟨w2, h2, rfl⟩ := h
  split at h2
  · rw [show (emit Event.started w2).stopping_ = w2.stopping_ from rfl,
      execute_startup_files_stopping _ _ _ _ h2]
  · simp only [Option.some.injEq] at h2
    rw [← h2]
    rfl

/-- An operation that returns leaves `stopping_` false if it is `start()` and unchanged otherwise. -/
theorem run_stopping (ext : Externals) (op : Operation) (before after : ApplicationBase × World)
    (h : op.run ext before = some after) :
    (op = Operation.start → after.2.stopping_ = false) ∧
    (op ≠ Operation.start → after.2.stopping_ = before.2.stopping_) := by
  obtain ⟨app, w⟩ := before
  cases op with
  | start =>
    simp only [Operation.run, Option.map_eq_some'] at h
    obtain ⟨w1, h1, rfl⟩ := h
    exact ⟨fun _ => start_stopping ext app w w1 h1, fun hne => absurd rfl hne⟩
  | load_preferences filename =>
    refine ⟨fun hop => (by cases hop), fun _ => ?_⟩
    simp only [Operation.run, ApplicationBase.load_preferences, Option.map_eq_some'] at h
    obtain ⟨w1, h1, rfl⟩ := h
    split at h1
    · cases h1
    · simp only [Option.some.injEq] at h1
      rw [← h1]
      rfl
  | begin =>
    refine ⟨fun hop => (by cases hop), fun _ => ?_⟩
    simp only [Operation.run, ApplicationBase.begin, Option.map_eq_some'] at h
    obtain ⟨w1, h1, rfl⟩ := h
    split at h1
    · cases h1
    · simp only [Option.some.injEq] at h1
      rw [← h1]
      rfl
  | «end» canceled =>
    refine ⟨fun hop => (by cases hop), fun _ => ?_⟩
    simp only [Operation.run, ApplicationBase.end, Option.map_eq_some'] at h
    obtain ⟨w1, h1, rfl⟩ := h
    split at h1
    · cases h1
    · simp only [Option.some.injEq] at h1
      rw [← h1]
      cases canceled <;> rfl
  | progress_client_begin =>
    refine ⟨fun hop => (by cases hop), fun _ => ?_⟩
    simp only [Operation.run, ApplicationBaseProgressClient.begin, ApplicationBase.begin,
      Option.map_eq_some'] at h
    obtain ⟨w1, h1, rfl⟩ := h
    split at h1
    · cases h1
    · simp only [Option.some.injEq] at h1
      rw [← h1]
      rfl
  | progress_client_end canceled =>
    refine ⟨fun hop => (by cases hop), fun _ => ?_⟩
    simp only [Operation.run, ApplicationBaseProgressClient.end, ApplicationBase.end,
      Option.map_eq_some'] at h
    obtain ⟨w1, h1, rfl⟩ := h
    split at h1
    · cases h1
    · simp only [Option.some.injEq] at h1
      rw [← h1]
      cases canceled <;> rfl
  | stop =>
    refine ⟨fun hop => (by cases hop), fun _ => ?_⟩
    simp only [Operation.run, Option.some.injEq] at h
    rw [← h]
    cases hc : app.logger_client_ <;>
      simp [ApplicationBase.stop, Logger.unregister_client, Progress.set_client, emit, hc]
  | declare_preference_variable name value help =>
    refine ⟨fun hop => (by cases hop), fun _ => ?_⟩
    simp only [Operation.run, Option.some.injEq] at h
    rw [← h]
    cases hd : CmdLine.arg_is_declared w name <;>
      simp [ApplicationBase.declare_preference_variable, hd, emit]
  | _ =>
    refine ⟨fun hop => (by cases hop), fun _ => ?_⟩
    simp only [Operation.run, Option.some.injEq] at h
    subst h
    rfl

/-- Running a concatenation is running its parts in turn. -/
theorem run_operations_append (ext : Externals) (pre post : List Operation)
    (s : ApplicationBase × World) :
    run_operations ext (pre ++ post) s =
      (run_operations ext pre s).bind (run_operations ext post) := by
  induction pre generalizing s with
  | nil => rfl
  | cons op pre ih =>
    cases hrun : op.run ext s with
    | none => simp [run_operations, hrun]
    | some s1 => simp [run_operations, hrun, ih]

/-- Once false, `stopping_` is false after any sequence of operations. -/
theorem run_operations_keeps_stopping_false (ext : Externals) (ops : List Operation)
    (s final : ApplicationBase × World) (h : run_operations ext ops s = some final)
    (hs : s.2.stopping_ = false) : final.2.stopping_ = false := by
  induction ops generalizing s with
  | nil =>
    simp only [run_operations, Option.some.injEq] at h
    rw [← h]
    exact hs
  | cons op ops ih =>
    cases hrun : op.run ext s with
    | none => simp [run_operations, hrun] at h
    | some s1 =>
      simp only [run_operations, hrun, Option.some_bind] at h
      refine ih s1 h ?_
      by_cases hop : op = Operation.start
      · exact (run_stopping ext op s s1 hrun).1 hop
      · rw [(run_stopping ext op s s1 hrun).2 hop]
        exact hs

theorem constructor_stopping (interpreter : Option Ptr) (w : World) :
    (ApplicationBase.constructor interpreter w).2.stopping_ = w.stopping_ := by
  by_cases hm : w.next_ptr ∈ w.logger_clients <;>
    simp [ApplicationBase.constructor, allocate, Logger.register_client,
      Progress.set_client, emit, hm]

theorem destructor_stopping (app : ApplicationBase) (w : World) :
    (ApplicationBase.destructor app w).stopping_ = w.stopping_ := by
  cases hc : app.logger_client_ <;>
    simp [ApplicationBase.destructor, Logger.unregister_client, Progress.set_client, emit, hc]

/-- C10: `stopping_` is true in the initial state of the process; an operation of
`application_base.cpp` other than `start()` (the constructor and the destructor included)
leaves it as it is, and `start()` makes it false.  So after any sequence of operations that
contains a `start()`, whatever comes before and after it, `stopping_` is false, and it
is still false after the destructor. -/
theorem stopping_stays_false_after_start (ext : Externals) (pre post : List Operation)
    (s final : ApplicationBase × World)
    (h : run_operations ext (pre ++ Operation.start :: post) s = some final) :
    World.initial.stopping_ = true ∧
    final.2.stopping_ = false ∧
    (ApplicationBase.destructor final.1 final.2).stopping_ = false ∧
    (∀ op before after, op ≠ Operation.start → Operation.run ext op before = some after →
      after.2.stopping_ = before.2.stopping_) ∧
    (∀ interpreter w, (ApplicationBase.constructor interpreter w).2.stopping_ = w.stopping_) ∧
    (∀ app w, (ApplicationBase.destructor app w).stopping_ = w.stopping_) := by
  have hfinal : final.2.stopping_ = false := by
    rw [run_operations_append] at h
    cases hpre : run_operations ext pre s with
    | none => simp [hpre] at h
    | some mid =>
      simp only [hpre, Option.some_bind, run_operations] at h
      cases hstart : Operation.run ext Operation.start mid with
      | none => simp [hstart] at h
      | some started =>
        simp only [hstart, Option.some_bind] at h
        exact run_operations_keeps_stopping_false ext post started final h
          ((run_stopping ext Operation.start mid started hstart).1 rfl)
  refine ⟨rfl, hfinal, ?_, ?_, constructor_stopping, destructor_stopping⟩
  · rw [destructor_stopping]
    exact hfinal
  · intro op before after hop hrun
    exact (run_stopping ext op before after hrun).2 hop

/-- From a world in which `stopping_` is true, a sequence with a `start()` in the middle
returns and leaves `stopping_` false, also after the destructor. -/
theorem stopping_stays_false_after_start_witness :
    (sample_application, sample_world_in_task).2.stopping_ = true ∧
    ∃ final,
      run_operations sample_externals
        ([Operation.set_style "dark", Operation.begin] ++
          Operation.start :: [Operation.progress 1 50, Operation.end true, Operation.stop])
        (sample_application, sample_world_in_task) = some final ∧
      final.2.stopping_ = false ∧
      (ApplicationBase.destructor final.1 final.2).stopping_ = false :=
  ⟨rfl, _, rfl,
   (stopping_stays_false_after_start sample_externals
     [Operation.set_style "dark", Operation.begin]
     [Operation.progress 1 50, Operation.end true, Operation.stop]
     (sample_application, sample_world_in_task) _ rfl).2.1,
   (stopping_stays_false_after_start sample_externals
     [Operation.set_style "dark", Operation.begin]
     [Operation.progress 1 50, Operation.end true, Operation.stop]
     (sample_application, sample_world_in_task) _ rfl).2.2.1⟩

end OGF
